import Mathlib

/-!
Shallow embedding of the kwboot serial boot tool (tools/kwboot.c), for
verifying the specification's claims about the handshake engine, the
xmodem block transfer engine, the terminal escape matcher and the image
header patcher.

The byte channel is modelled as an oracle (`Chan`) giving the result of
each flush, send and single-byte receive, indexed by a per-operation
call counter (`ChanSt`).  `kwboot_tty_recv` in the C code returns -1
both on a timeout (select returns 0, the subsequent non-blocking read
fails) and on a genuine select/read error, so the model's
`kwboot_tty_recv1` collapses `RecvOutcome.timeout` and
`RecvOutcome.ioerr` to `none`, exactly as the code collapses them.
-/

namespace Kwboot

abbrev Byte := Nat

/-- Protocol control bytes from tools/kwboot.c. -/
def SOH : Byte := 1
def EOT : Byte := 4
def ACK : Byte := 6
def NAK : Byte := 21
def CAN : Byte := 24

/-- errno values used by kwboot_xm_sendblock (Linux numeric values). -/
def EBADMSG : Nat := 74
def ECANCELED : Nat := 125
def EPROTO : Nat := 71

def blksz : Nat := 128

/-- struct kwboot_block.  `pnumC` is the `_pnum` complement field. -/
structure kwboot_block where
  soh : Byte
  pnum : Byte
  pnumC : Byte
  data : List Byte
  csum : Byte
deriving DecidableEq, Repr

/-- The 132 bytes of a block as transmitted (sizeof(struct kwboot_block)). -/
def blockBytes (b : kwboot_block) : List Byte :=
  b.soh :: b.pnum :: b.pnumC :: (b.data ++ [b.csum])

/-- kwboot_xm_makeblock from tools/kwboot.c.  The C code never assigns
`block->soh`; `soh0` is the pre-call (uninitialized) value of that byte,
which the function leaves unchanged.  `pnum` is the int argument; the
stores into the uint8_t fields truncate mod 256.  The checksum loop sums
only the first `n` payload bytes, with uint8_t wraparound.  Returns the
updated block together with the int return value `n`. -/
def kwboot_xm_makeblock (soh0 : Byte) (data : List Byte) (size : Nat) (pnum : Nat) :
    kwboot_block × Int :=
  let n : Nat := min size blksz
  let payload : List Byte := data.take n ++ List.replicate (blksz - n) 0
  let csum : Byte := List.foldl (fun a b => (a + b) % 256) 0 (payload.take n)
  ({ soh := soh0, pnum := pnum % 256, pnumC := 255 - pnum % 256, data := payload,
     csum := csum }, (n : Int))

/-- One single-byte receive can time out, fail with an I/O error, or
yield a byte.  The C code (kwboot_tty_recv) cannot tell the first two
apart: both produce rc = -1. -/
inductive RecvOutcome
  | timeout
  | ioerr
  | byte (b : Byte)
deriving DecidableEq, Repr

/-- Environment oracle: the result of the k-th flush, k-th send and k-th
single-byte receive on the tty. -/
structure Chan where
  flushOk : Nat → Bool
  sendOk : Nat → Bool
  recv : Nat → RecvOutcome

/-- Per-operation call counters threading through a run. -/
structure ChanSt where
  nFlush : Nat
  nSend : Nat
  nRecv : Nat
deriving DecidableEq, Repr

/-- kwboot_tty_recv for a single byte: returns the byte on success and
`none` (rc = -1) on timeout or I/O error alike. -/
def kwboot_tty_recv1 (o : RecvOutcome) : Option Byte :=
  match o with
  | .byte b => some b
  | _ => none

/-- Observable transmissions: a framed block (132 bytes) or a single
control byte sent with kwboot_tty_send_char. -/
inductive IoEvt
  | sblk (bs : List Byte)
  | sbyte (c : Byte)
deriving DecidableEq, Repr

/-- The do/while loop of kwboot_xm_sendblock:
    do { send; if fail break; recv c; if fail break; }
    while (c == NAK && retries-- > 0);
`c` is the current value of the char variable (uninitialized garbage at
the first call, modelled by the caller's argument).  Returns the final
value of `c`, the channel counters, and the transmissions attempted. -/
def sendblock_go (ch : Chan) (bs : List Byte) : Byte → Nat → ChanSt → Byte × ChanSt × List IoEvt
  | c, 0, st =>
    if ch.sendOk st.nSend then
      match kwboot_tty_recv1 (ch.recv st.nRecv) with
      | none => (c, ⟨st.nFlush, st.nSend + 1, st.nRecv + 1⟩, [IoEvt.sblk bs])
      | some b => (b, ⟨st.nFlush, st.nSend + 1, st.nRecv + 1⟩, [IoEvt.sblk bs])
    else (c, ⟨st.nFlush, st.nSend + 1, st.nRecv⟩, [IoEvt.sblk bs])
  | c, r + 1, st =>
    if ch.sendOk st.nSend then
      match kwboot_tty_recv1 (ch.recv st.nRecv) with
      | none => (c, ⟨st.nFlush, st.nSend + 1, st.nRecv + 1⟩, [IoEvt.sblk bs])
      | some b =>
        if b = NAK then
          ((sendblock_go ch bs b r ⟨st.nFlush, st.nSend + 1, st.nRecv + 1⟩).1,
           (sendblock_go ch bs b r ⟨st.nFlush, st.nSend + 1, st.nRecv + 1⟩).2.1,
           IoEvt.sblk bs ::
             (sendblock_go ch bs b r ⟨st.nFlush, st.nSend + 1, st.nRecv + 1⟩).2.2)
        else (b, ⟨st.nFlush, st.nSend + 1, st.nRecv + 1⟩, [IoEvt.sblk bs])
    else (c, ⟨st.nFlush, st.nSend + 1, st.nRecv⟩, [IoEvt.sblk bs])

/-- Result of kwboot_xm_sendblock: the int return value, the errno set
by the final switch (none when left untouched, i.e. on ACK), the final
value of `c`, the counters and the transmissions. -/
structure SBRes where
  rc : Int
  errno : Option Nat
  c : Byte
  st : ChanSt
  tr : List IoEvt
deriving DecidableEq, Repr

/-- kwboot_xm_sendblock from tools/kwboot.c.  `retries` starts at 16;
after the loop, rc and errno are recomputed from the last value of `c`
(even when the loop was left by a send/recv failure).  `c0` is the
uninitialized initial value of the char variable `c`. -/
def kwboot_xm_sendblock (ch : Chan) (bs : List Byte) (c0 : Byte) (st : ChanSt) : SBRes :=
  let r := sendblock_go ch bs c0 16 st
  { rc := if r.1 = ACK then 0 else -1
  , errno := if r.1 = ACK then none
             else if r.1 = NAK then some EBADMSG
             else if r.1 = CAN then some ECANCELED
             else some EPROTO
  , c := r.1, st := r.2.1, tr := r.2.2 }

/-- The kwboot_xmodem loop, indexed by fuel (each iteration consumes at
least one source byte or terminates, so `data.length + 1` fuel always
suffices; `none` means the fuel ran out).  `rcCur` models the C int
variable `rc`, `none` while still uninitialized; the `goto can` path
(taken only when makeblock returns a negative count) saves errno, sends
a single CAN byte ignoring that send's result, restores errno and
returns the current `rc`. -/
def kwboot_xmodem_go (ch : Chan) (g cg : Nat → Byte) (fuel : Nat) (data : List Byte)
    (pnum : Nat) (rcCur : Option Int) (st : ChanSt) :
    Option (Option Int × ChanSt × List IoEvt) :=
  match fuel with
  | 0 => none
  | fuel + 1 =>
    let mb := kwboot_xm_makeblock (g pnum) data data.length pnum
    if mb.2 < 0 then
      some (rcCur, ⟨st.nFlush, st.nSend + 1, st.nRecv⟩, [IoEvt.sbyte CAN])
    else if mb.2 = 0 then
      some (some (if ch.sendOk st.nSend then 0 else -1),
            ⟨st.nFlush, st.nSend + 1, st.nRecv⟩, [IoEvt.sbyte EOT])
    else
      let res := kwboot_xm_sendblock ch (blockBytes mb.1) (cg pnum) st
      if res.rc = 0 then
        match kwboot_xmodem_go ch g cg fuel (data.drop mb.2.toNat) (pnum + 1) (some 0) res.st with
        | none => none
        | some (rc2, st2, tr2) => some (rc2, st2, res.tr ++ tr2)
      else
        some (some res.rc, res.st, res.tr)

/-- kwboot_xmodem from tools/kwboot.c.  `g pnum` is the uninitialized
soh byte of the fresh stack block of the iteration with sequence
argument `pnum`; `cg pnum` is the corresponding uninitialized `c` of
kwboot_xm_sendblock. -/
def kwboot_xmodem (ch : Chan) (g cg : Nat → Byte) (data : List Byte) :
    Option (Option Int × ChanSt × List IoEvt) :=
  kwboot_xmodem_go ch g cg (data.length + 1) data 1 none ⟨0, 0, 0⟩

/-- The transmissions of a kwboot_xmodem run (empty if the fuel ran out,
which never happens with the wrapper's fuel). -/
def xmodemTrace (ch : Chan) (g cg : Nat → Byte) (data : List Byte) : List IoEvt :=
  match kwboot_xmodem ch g cg data with
  | some r => r.2.2
  | none => []

/-- The framed blocks among a list of transmissions. -/
def sentBlocks (tr : List IoEvt) : List (List Byte) :=
  tr.filterMap (fun e => match e with | .sblk bs => some bs | .sbyte _ => none)

/-- kwboot_bootmsg from tools/kwboot.c, fuel-indexed (the C loop has no
attempt cap; `none` means no verdict within `fuel` attempts).  Each
attempt: tcflush (failure breaks the loop and is returned), send of the
8-byte wake pattern (failure sleeps and retries), one-byte receive
(failure of any kind retries; a received byte other than NAK retries). -/
def kwboot_bootmsg_go (ch : Chan) (fuel : Nat) (st : ChanSt) : Option (Int × ChanSt) :=
  match fuel with
  | 0 => none
  | fuel + 1 =>
    let st1 : ChanSt := ⟨st.nFlush + 1, st.nSend, st.nRecv⟩
    if ch.flushOk st.nFlush then
      let st2 : ChanSt := ⟨st1.nFlush, st1.nSend + 1, st1.nRecv⟩
      if ch.sendOk st1.nSend then
        let st3 : ChanSt := ⟨st2.nFlush, st2.nSend, st2.nRecv + 1⟩
        match kwboot_tty_recv1 (ch.recv st2.nRecv) with
        | none => kwboot_bootmsg_go ch fuel st3
        | some b => if b = NAK then some (0, st3) else kwboot_bootmsg_go ch fuel st3
      else kwboot_bootmsg_go ch fuel st2
    else some (-1, st1)

def kwboot_bootmsg (ch : Chan) (fuel : Nat) : Option (Int × ChanSt) :=
  kwboot_bootmsg_go ch fuel ⟨0, 0, 0⟩

/-- C string indexing of the NUL-terminated quit sequence: `quit[i]` is
the i-th byte, 0 at (and past) the terminator. -/
def qAt (q : List Byte) (i : Nat) : Byte := q.getD i 0

/-- The for loop of kwboot_term_quit.  The C body reads `*buf` on every
iteration and never advances `buf`, so every iteration examines the same
first buffer byte `b0`; the loop breaks as soon as the counter reaches
the end of the quit sequence. -/
def term_quit_go (b0 : Byte) (q : List Byte) (s : Nat) (n : Nat) : Nat :=
  match n with
  | 0 => s
  | n + 1 =>
    if b0 = qAt q s then
      if qAt q (s + 1) = 0 then s + 1
      else term_quit_go b0 q (s + 1) n
    else term_quit_go b0 q 0 n

/-- kwboot_term_quit from tools/kwboot.c: returns the int result
(0 = quit sequence complete, -1 = not yet) and the final match counter. -/
def kwboot_term_quit (buf : List Byte) (q : List Byte) (s : Nat) : Int × Nat :=
  let s1 := term_quit_go (buf.headD 0) q s buf.length
  ((if qAt q s1 = 0 then 0 else -1), s1)

/-- The quit string of kwboot_terminal, "\34c". -/
def quitSeq : List Byte := [28, 99]

/-- Header layout constants.  Modelled from the spec: kwbimage.h is not
under src/, so the bhr_t layout is taken from the spec's description of
the image header patcher (a fixed-size checksum-protected header whose
transport-type tag is its first byte and whose stored checksum is its
last byte): 32-byte header, blockid at offset 0, nandeccmode at offset
1, nandpagesize at offsets 2-3, srcaddr at offsets 12-15 (little
endian), ext at offset 30, checkSum at offset 31.  IBR_HDR_UART_ID is
0x69 as stated by kwboot_usage in tools/kwboot.c. -/
def hdrsz : Nat := 32
def IBR_HDR_UART_ID : Byte := 0x69
def IBR_HDR_ECC_DISABLED : Byte := 3
def kwb_header_size : Nat := 64

/-- kwboot_img_csum8: uint8_t sum of a byte region. -/
def kwboot_img_csum8 (l : List Byte) : Byte :=
  List.foldl (fun a b => (a + b) % 256) 0 l

/-- kwboot_img_patch_hdr from tools/kwboot.c over an image modelled as a
byte list.  Returns the int result and the (possibly rewritten) image.
The uint8_t subtraction `csum8(hdr) - checkSum` is (sum + 256 - ck) mod
256. -/
def kwboot_img_patch_hdr (img : List Byte) : Int × List Byte :=
  if img.length < hdrsz then (-1, img)
  else
    let ck := img.getD 31 0
    let csum := (kwboot_img_csum8 (img.take hdrsz) + (256 - ck % 256)) % 256
    if csum ≠ ck then (-1, img)
    else if img.getD 0 0 = IBR_HDR_UART_ID then (0, img)
    else
      let i1 := ((img.set 0 IBR_HDR_UART_ID).set 1 IBR_HDR_ECC_DISABLED).set 2 0
      let i2 := i1.set 3 0
      let src := if img.getD 30 0 ≠ 0 then kwb_header_size else hdrsz
      let i3 := (((i2.set 12 (src % 256)).set 13 (src / 256 % 256)).set 14
                  (src / 65536 % 256)).set 15 (src / 16777216 % 256)
      let ck2 := (kwboot_img_csum8 (i3.take hdrsz) + (256 - csum % 256)) % 256
      (0, i3.set 31 ck2)

/-! Concrete channels used by the theorems. -/

/-- Channel that acknowledges every block. -/
def allAck : Chan := ⟨fun _ => true, fun _ => true, fun _ => RecvOutcome.byte ACK⟩

/-- Channel that rejects every block with NAK. -/
def allNak : Chan := ⟨fun _ => true, fun _ => true, fun _ => RecvOutcome.byte NAK⟩

/-- Channel whose target cancels every block with CAN. -/
def chCan : Chan := ⟨fun _ => true, fun _ => true, fun _ => RecvOutcome.byte CAN⟩

/-- Channel with a genuine receive I/O error first, then a NAK reply. -/
def chRecvErrThenNak : Chan :=
  ⟨fun _ => true, fun _ => true, fun k => if k = 0 then RecvOutcome.ioerr else RecvOutcome.byte NAK⟩

/-- Channel whose second flush fails, receives always erroring. -/
def chFlushFail : Chan := ⟨fun k => k == 0, fun _ => true, fun _ => RecvOutcome.ioerr⟩

/-- Reference framing of an all-acknowledged transfer: the blocks that
kwboot_xmodem frames from `data` starting at sequence argument `pnum`. -/
def xmodemBlocks (g : Nat → Byte) (data : List Byte) (pnum : Nat) : List kwboot_block :=
  if h : data = [] then []
  else (kwboot_xm_makeblock (g pnum) data data.length pnum).1
       :: xmodemBlocks g (data.drop 128) (pnum + 1)
termination_by data.length
decreasing_by
  simp only [List.length_drop]
  have : 0 < data.length := List.length_pos.mpr h
  omega

/-! Helper lemmas. -/

lemma foldl_add_mod (l : List Byte) (a : Nat) :
    List.foldl (fun x y => (x + y) % 256) (a % 256) l = (a + l.sum) % 256 := by
  induction l generalizing a with
  | nil => simp
  | cons b t ih =>
    simp only [List.foldl_cons, List.sum_cons]
    rw [Nat.mod_add_mod] at *
    rw [ih (a + b)]
    omega

lemma makeblock_snd (s0 : Byte) (data : List Byte) (size pnum : Nat) :
    (kwboot_xm_makeblock s0 data size pnum).2 = ((min size blksz : Nat) : Int) := rfl

lemma makeblock_fst (s0 : Byte) (data : List Byte) (size pnum : Nat) :
    (kwboot_xm_makeblock s0 data size pnum).1 =
      { soh := s0, pnum := pnum % 256, pnumC := 255 - pnum % 256
      , data := data.take (min size blksz) ++ List.replicate (blksz - min size blksz) 0
      , csum := List.foldl (fun a b => (a + b) % 256) 0
          ((data.take (min size blksz) ++ List.replicate (blksz - min size blksz) 0).take
            (min size blksz)) } := rfl

lemma drop_min_blksz (data : List Byte) :
    data.drop (min data.length blksz) = data.drop blksz := by
  rcases le_or_lt data.length blksz with h | h
  · rw [min_eq_left h, List.drop_length, List.drop_eq_nil_of_le h]
  · rw [min_eq_right h.le]

lemma allAck_sendOk (k : Nat) : allAck.sendOk k = true := rfl

lemma allAck_recv (k : Nat) : allAck.recv k = RecvOutcome.byte ACK := rfl

lemma allNak_sendOk (k : Nat) : allNak.sendOk k = true := rfl

lemma allNak_recv (k : Nat) : allNak.recv k = RecvOutcome.byte NAK := rfl

lemma sendblock_go_events (ch : Chan) (bs : List Byte) :
    ∀ retries c st e, e ∈ (sendblock_go ch bs c retries st).2.2 → e = IoEvt.sblk bs := by
  intro retries
  induction retries with
  | zero =>
    intro c st e he
    rw [sendblock_go] at he
    split at he
    · split at he <;> simp_all
    · simp_all
  | succ r ih =>
    intro c st e he
    rw [sendblock_go] at he
    split at he
    · split at he
      · simp_all
      · split at he
        · simp only [List.mem_cons] at he
          rcases he with h | h
          · exact h
          · exact ih _ _ _ h
        · simp_all
    · simp_all

lemma sendblock_allAck (bs : List Byte) (c0 : Byte) (st : ChanSt) :
    kwboot_xm_sendblock allAck bs c0 st =
      ⟨0, none, ACK, ⟨st.nFlush, st.nSend + 1, st.nRecv + 1⟩, [IoEvt.sblk bs]⟩ := rfl

lemma sendblock_go_allNak (bs : List Byte) :
    ∀ r c st, sendblock_go allNak bs c r st =
      (NAK, ⟨st.nFlush, st.nSend + (r + 1), st.nRecv + (r + 1)⟩,
        List.replicate (r + 1) (IoEvt.sblk bs)) := by
  intro r
  induction r with
  | zero => intro c st; rfl
  | succ r ih =>
    intro c st
    rw [sendblock_go]
    simp [allNak_sendOk, allNak_recv, kwboot_tty_recv1, ih, List.replicate_succ,
      ChanSt.mk.injEq]
    omega

/-- With a channel that acknowledges every block, kwboot_xmodem runs to
completion: one send and one receive per framed block, one final EOT
send, the trace being exactly the frames of `xmodemBlocks` then EOT. -/
lemma xmodem_go_allAck (g cg : Nat → Byte) :
    ∀ fuel data pnum rcCur st, data.length < fuel →
      kwboot_xmodem_go allAck g cg fuel data pnum rcCur st =
        some (some 0,
          ⟨st.nFlush, st.nSend + (data.length + 127) / 128 + 1,
           st.nRecv + (data.length + 127) / 128⟩,
          List.map (fun b => IoEvt.sblk (blockBytes b)) (xmodemBlocks g data pnum)
            ++ [IoEvt.sbyte EOT]) := by
  intro fuel
  induction fuel with
  | zero => intro data pnum rcCur st h; omega
  | succ f ih =>
    intro data pnum rcCur st h
    rw [kwboot_xmodem_go]
    by_cases hd : data = []
    · subst hd
      rw [xmodemBlocks]
      simp [makeblock_snd, allAck_sendOk]
    · have hlen : 0 < data.length := List.length_pos.mpr hd
      have hmin : 0 < min data.length blksz := by
        simp only [blksz]; omega
      have h1 : ¬ (kwboot_xm_makeblock (g pnum) data data.length pnum).2 < 0 := by
        rw [makeblock_snd]; omega
      have h2 : ¬ (kwboot_xm_makeblock (g pnum) data data.length pnum).2 = 0 := by
        rw [makeblock_snd]; omega
      rw [if_neg h1, if_neg h2]
      rw [sendblock_allAck]
      have htn : (kwboot_xm_makeblock (g pnum) data data.length pnum).2.toNat
          = min data.length blksz := by
        rw [makeblock_snd]; omega
      have hrec : (List.drop blksz data).length < f := by
        simp only [List.length_drop, blksz]
        simp only [blksz] at hmin
        omega
      have hxb : xmodemBlocks g data pnum
          = (kwboot_xm_makeblock (g pnum) data data.length pnum).1
            :: xmodemBlocks g (data.drop 128) (pnum + 1) := by
        rw [xmodemBlocks]
        exact dif_neg hd
      dsimp only
      rw [if_pos rfl, htn, drop_min_blksz, ih _ _ _ _ hrec]
      dsimp only
      rw [hxb]
      simp only [List.length_drop, List.map_cons, List.cons_append, Prod.mk.injEq,
        Option.some.injEq, ChanSt.mk.injEq, blksz]
      refine ⟨trivial, ⟨trivial, by omega, by omega⟩, by simp⟩


lemma sendblock_tr (ch : Chan) (bs : List Byte) (c0 : Byte) (st : ChanSt) :
    (kwboot_xm_sendblock ch bs c0 st).tr = (sendblock_go ch bs c0 16 st).2.2 := rfl

lemma xmodemBlocks_nil (g : Nat → Byte) (pnum : Nat) : xmodemBlocks g [] pnum = [] := by
  rw [xmodemBlocks]
  exact dif_pos rfl

lemma xmodemBlocks_cons (g : Nat → Byte) (data : List Byte) (pnum : Nat) (hd : data ≠ []) :
    xmodemBlocks g data pnum
      = (kwboot_xm_makeblock (g pnum) data data.length pnum).1
        :: xmodemBlocks g (data.drop 128) (pnum + 1) := by
  rw [xmodemBlocks]
  exact dif_neg hd

lemma xmodemBlocks_length (g : Nat → Byte) :
    ∀ n data pnum, data.length ≤ n →
      (xmodemBlocks g data pnum).length = (data.length + 127) / 128 := by
  intro n
  induction n with
  | zero =>
    intro data pnum h
    have hnil : data = [] := List.length_eq_zero.mp (by omega)
    subst hnil
    rw [xmodemBlocks_nil]
    norm_num
  | succ n ih =>
    intro data pnum h
    by_cases hd : data = []
    · subst hd; rw [xmodemBlocks_nil]; norm_num
    · have hlen : 0 < data.length := List.length_pos.mpr hd
      rw [xmodemBlocks_cons g data pnum hd]
      have hdl : (data.drop 128).length ≤ n := by
        simp only [List.length_drop]; omega
      simp only [List.length_cons, ih (data.drop 128) (pnum + 1) hdl, List.length_drop]
      omega

lemma xmodemBlocks_get (g : Nat → Byte) :
    ∀ n data pnum i b, data.length ≤ n →
      (xmodemBlocks g data pnum).get? i = some b → b.pnum = (pnum + i) % 256 := by
  intro n
  induction n with
  | zero =>
    intro data pnum i b h hget
    have hnil : data = [] := List.length_eq_zero.mp (by omega)
    subst hnil
    rw [xmodemBlocks_nil] at hget
    simp at hget
  | succ n ih =>
    intro data pnum i b h hget
    by_cases hd : data = []
    · subst hd; rw [xmodemBlocks_nil] at hget; simp at hget
    · have hlen : 0 < data.length := List.length_pos.mpr hd
      rw [xmodemBlocks_cons g data pnum hd] at hget
      cases i with
      | zero =>
        rw [List.get?_cons_zero] at hget
        cases hget
        simp [kwboot_xm_makeblock]
      | succ i =>
        rw [List.get?_cons_succ] at hget
        have hdl : (data.drop 128).length ≤ n := by
          simp only [List.length_drop]; omega
        have := ih (data.drop 128) (pnum + 1) i b hdl hget
        rw [this]
        congr 1
        omega

lemma xmodemBlocks_join (g : Nat → Byte) :
    ∀ n data pnum, data.length ≤ n → 128 ∣ data.length →
      (List.map kwboot_block.data (xmodemBlocks g data pnum)).flatten = data := by
  intro n
  induction n with
  | zero =>
    intro data pnum h hdvd
    have hnil : data = [] := List.length_eq_zero.mp (by omega)
    subst hnil
    rw [xmodemBlocks_nil]
    simp
  | succ n ih =>
    intro data pnum h hdvd
    by_cases hd : data = []
    · subst hd; rw [xmodemBlocks_nil]; simp
    · have hlen : 0 < data.length := List.length_pos.mpr hd
      have h128 : 128 ≤ data.length := by
        rcases hdvd with ⟨k, hk⟩
        rcases Nat.eq_zero_or_pos k with hk0 | hk0 <;> omega
      rw [xmodemBlocks_cons g data pnum hd]
      have hmb : (kwboot_xm_makeblock (g pnum) data data.length pnum).1.data
          = data.take 128 := by
        rw [makeblock_fst]
        dsimp only
        rw [min_eq_right (show blksz ≤ data.length by simpa [blksz] using h128)]
        simp [blksz]
      have hdl : (data.drop 128).length ≤ n := by
        simp only [List.length_drop]; omega
      have hdvd2 : 128 ∣ (data.drop 128).length := by
        simp only [List.length_drop]
        exact Nat.dvd_sub' hdvd ⟨1, rfl⟩
      simp only [List.map_cons, List.flatten_cons, hmb, ih (data.drop 128) (pnum + 1) hdl hdvd2]
      exact List.take_append_drop _ _

lemma sentBlocks_map_append (l : List kwboot_block) (c : Byte) :
    sentBlocks (List.map (fun b => IoEvt.sblk (blockBytes b)) l ++ [IoEvt.sbyte c])
      = List.map blockBytes l := by
  induction l with
  | nil => rfl
  | cons b t ih =>
    simp only [List.map_cons, List.cons_append, sentBlocks, List.filterMap_cons] at *
    rw [ih]

lemma xmodem_go_no_can (ch : Chan) (g cg : Nat → Byte) :
    ∀ fuel data pnum rcCur st res,
      kwboot_xmodem_go ch g cg fuel data pnum rcCur st = some res →
      IoEvt.sbyte CAN ∉ res.2.2 := by
  intro fuel
  induction fuel with
  | zero => intro data pnum rcCur st res h; simp [kwboot_xmodem_go] at h
  | succ f ih =>
    intro data pnum rcCur st res h
    rw [kwboot_xmodem_go] at h
    have h1 : ¬ (kwboot_xm_makeblock (g pnum) data data.length pnum).2 < 0 := by
      rw [makeblock_snd]; omega
    rw [if_neg h1] at h
    by_cases h2 : (kwboot_xm_makeblock (g pnum) data data.length pnum).2 = 0
    · rw [if_pos h2] at h
      cases h
      simp [EOT, CAN]
    · rw [if_neg h2] at h
      dsimp only at h
      by_cases h3 : (kwboot_xm_sendblock ch
          (blockBytes (kwboot_xm_makeblock (g pnum) data data.length pnum).1) (cg pnum) st).rc = 0
      · rw [if_pos h3] at h
        cases hrec : kwboot_xmodem_go ch g cg f
            (data.drop (kwboot_xm_makeblock (g pnum) data data.length pnum).2.toNat)
            (pnum + 1) (some 0)
            (kwboot_xm_sendblock ch
              (blockBytes (kwboot_xm_makeblock (g pnum) data data.length pnum).1) (cg pnum) st).st with
        | none => rw [hrec] at h; simp at h
        | some r2 =>
          rw [hrec] at h
          obtain ⟨rc2, st2, tr2⟩ := r2
          dsimp only at h
          cases h
          intro hmem
          rcases List.mem_append.mp hmem with hm | hm
          · have := sendblock_go_events ch
              (blockBytes (kwboot_xm_makeblock (g pnum) data data.length pnum).1) 16 (cg pnum) st
              (IoEvt.sbyte CAN) (by rw [← sendblock_tr]; exact hm)
            simp at this
          · exact ih _ _ _ _ _ hrec hm
      · rw [if_neg h3] at h
        cases h
        intro hmem
        have := sendblock_go_events ch
          (blockBytes (kwboot_xm_makeblock (g pnum) data data.length pnum).1) 16 (cg pnum) st
          (IoEvt.sbyte CAN) (by rw [← sendblock_tr]; exact hmem)
        simp at this

lemma bootmsg_go_fail_flush (ch : Chan) :
    ∀ fuel st rc st1, kwboot_bootmsg_go ch fuel st = some (rc, st1) → rc ≠ 0 →
      rc = -1 ∧ 0 < st1.nFlush ∧ ch.flushOk (st1.nFlush - 1) = false := by
  intro fuel
  induction fuel with
  | zero => intro st rc st1 h hrc; simp [kwboot_bootmsg_go] at h
  | succ f ih =>
    intro st rc st1 h hrc
    rw [kwboot_bootmsg_go] at h
    dsimp only at h
    by_cases hf : ch.flushOk st.nFlush
    · rw [if_pos hf] at h
      by_cases hs : ch.sendOk st.nSend
      · rw [if_pos hs] at h
        cases hr : kwboot_tty_recv1 (ch.recv st.nRecv) with
        | none =>
          rw [hr] at h
          dsimp only at h
          exact ih _ _ _ h hrc
        | some b =>
          rw [hr] at h
          dsimp only at h
          by_cases hb : b = NAK
          · rw [if_pos hb] at h
            cases h
            exact absurd rfl hrc
          · rw [if_neg hb] at h
            exact ih _ _ _ h hrc
      · rw [if_neg hs] at h
        exact ih _ _ _ h hrc
    · rw [if_neg hf] at h
      cases h
      refine ⟨rfl, by simp, ?_⟩
      simpa using hf


lemma xmodemTrace_allAck (g cg : Nat → Byte) (data : List Byte) :
    xmodemTrace allAck g cg data
      = List.map (fun b => IoEvt.sblk (blockBytes b)) (xmodemBlocks g data 1)
        ++ [IoEvt.sbyte EOT] := by
  unfold xmodemTrace kwboot_xmodem
  rw [xmodem_go_allAck g cg (data.length + 1) data 1 none ⟨0, 0, 0⟩ (by omega)]

/-! The claims. -/

/-- C1 (amended): in a fully acknowledged transfer, the i-th framed
block (0-indexed) is stamped with sequence number (1 + i) mod 256: the
count starts at 1 and wraps modulo 256, so the 256th block carries
sequence number 0, not 1. -/
theorem c1_seq_mod256 (g cg : Nat → Byte) (data : List Byte) (i : Nat) (f : List Byte)
    (h : (sentBlocks (xmodemTrace allAck g cg data)).get? i = some f) :
    f.get? 1 = some ((1 + i) % 256) := by
  rw [xmodemTrace_allAck, sentBlocks_map_append, List.get?_map] at h
  cases hb : (xmodemBlocks g data 1).get? i with
  | none => rw [hb] at h; simp at h
  | some b =>
    rw [hb, Option.map_some'] at h
    cases h
    have hp := xmodemBlocks_get g data.length data 1 i b le_rfl hb
    simp [blockBytes, hp]

/-- C1 witness: a one-byte source, block 0 carries sequence number 1. -/
theorem c1_seq_mod256_witness :
    (sentBlocks (xmodemTrace allAck (fun _ => 1) (fun _ => 0) [9])).get? 0
        = some (1 :: 1 :: 254 :: ((9 :: List.replicate 127 0) ++ [9]))
    ∧ (1 :: 1 :: 254 :: ((9 :: List.replicate 127 0) ++ [9])).get? 1
        = some ((1 + 0) % 256) :=
  ⟨by decide, c1_seq_mod256 (fun _ => 1) (fun _ => 0) [9] 0 _ (by decide)⟩

/-- C1 counterexample: a 32641-byte source needs 256 blocks and the
256th framed block (index 255) is stamped sequence number 0, not 1. -/
theorem c1_counterexample :
    ((sentBlocks (xmodemTrace allAck (fun _ => 1) (fun _ => 0)
        (List.replicate 32641 0))).get? 255).bind (fun f => f.get? 1) = some 0
    ∧ (0 : Byte) ≠ 1 := by
  constructor
  · rw [xmodemTrace_allAck, sentBlocks_map_append, List.get?_map]
    have hlen : (xmodemBlocks (fun _ => 1) (List.replicate 32641 0) 1).length = 256 := by
      rw [xmodemBlocks_length (fun _ => 1) (List.replicate 32641 0).length
        (List.replicate 32641 0) 1 le_rfl]
      norm_num
    cases hb : (xmodemBlocks (fun _ => 1) (List.replicate 32641 0) 1).get? 255 with
    | none =>
      rw [List.get?_eq_none] at hb
      omega
    | some b =>
      rw [Option.map_some', Option.some_bind]
      have hp := xmodemBlocks_get (fun _ => 1) (List.replicate 32641 0).length
        (List.replicate 32641 0) 1 255 b le_rfl hb
      simp [blockBytes, hp]
  · decide


/-- The 132-byte frame of the single block of the source [7] when the
uninitialized soh byte happens to be 1. -/
def frame7 : List Byte := 1 :: 1 :: 254 :: ((7 :: List.replicate 127 0) ++ [7])

/-- C2 (amended): whenever kwboot_xmodem terminates with a failure
result, it has sent no cancellation marker byte at all: every failure of
a block send (or of the end-marker send) is returned directly via the
out path; the cancel path exists only behind the unreachable negative
makeblock guard. -/
theorem c2_no_cancel_on_failure (ch : Chan) (g cg : Nat → Byte) (data : List Byte)
    (r : Int) (st : ChanSt) (tr : List IoEvt)
    (h : kwboot_xmodem ch g cg data = some (some r, st, tr)) (_hr : r ≠ 0) :
    IoEvt.sbyte CAN ∉ tr :=
  xmodem_go_no_can ch g cg (data.length + 1) data 1 none ⟨0, 0, 0⟩ (some r, st, tr) h

/-- C2 witness: the target cancels the first block; the engine fails
with rc = -1 having sent only the one framed block and no CAN byte. -/
theorem c2_no_cancel_on_failure_witness :
    kwboot_xmodem chCan (fun _ => 1) (fun _ => 0) [7]
        = some (some (-1), ⟨0, 1, 1⟩, [IoEvt.sblk frame7])
    ∧ IoEvt.sbyte CAN ∉ [IoEvt.sblk frame7] :=
  ⟨by decide, c2_no_cancel_on_failure chCan (fun _ => 1) (fun _ => 0) [7] (-1) ⟨0, 1, 1⟩
      [IoEvt.sblk frame7] (by decide) (by decide)⟩

/-- C2 counterexample: on a target-cancelled transfer the engine
terminates with a failure outcome yet the number of cancellation marker
bytes it sent is 0, not exactly one as claimed. -/
theorem c2_counterexample :
    kwboot_xmodem chCan (fun _ => 1) (fun _ => 0) [7]
        = some (some (-1), ⟨0, 1, 1⟩, [IoEvt.sblk frame7])
    ∧ List.count (IoEvt.sbyte CAN) [IoEvt.sblk frame7] = 0
    ∧ (0 : Nat) ≠ 1 :=
  ⟨by decide, by decide, by decide⟩

/-- C3 (code bug): kwboot_xm_makeblock never assigns the soh field, so
the first byte of a transmitted frame is whatever the uninitialized
stack byte held (here 0), not the start-of-block marker 1; the rest of
the frame (sequence number, complement, 128 payload bytes, checksum) is
as specified. -/
theorem c3_soh_uninitialized :
    (sentBlocks (xmodemTrace allAck (fun _ => 0) (fun _ => 0) [7])).get? 0
        = some (0 :: 1 :: 254 :: ((7 :: List.replicate 127 0) ++ [7]))
    ∧ (0 : Byte) ≠ SOH
    ∧ (∀ s0 : Byte, (kwboot_xm_makeblock s0 [7] 1 1).1.soh = s0) :=
  ⟨by decide, by decide, fun _ => rfl⟩

/-- C4 (amended): with a target that NAKs every attempt, kwboot_xm_sendblock
transmits the identical frame exactly 17 times (the initial send plus 16
retries: the do/while condition is retries-- > 0 with retries = 16),
then gives up with rc = -1 and errno = EBADMSG. -/
theorem c4_seventeen_sends (bs : List Byte) (c0 : Byte) (st : ChanSt) :
    kwboot_xm_sendblock allNak bs c0 st
      = ⟨-1, some EBADMSG, NAK, ⟨st.nFlush, st.nSend + 17, st.nRecv + 17⟩,
         List.replicate 17 (IoEvt.sblk bs)⟩ := by
  unfold kwboot_xm_sendblock
  rw [sendblock_go_allNak bs 16 c0 st]
  norm_num [NAK, ACK]

/-- C4 counterexample: the all-NAK run sends the block 17 times, not 16. -/
theorem c4_counterexample :
    (kwboot_xm_sendblock allNak
        (blockBytes (kwboot_xm_makeblock 1 (List.replicate 128 0) 128 3).1) 0
        ⟨0, 0, 0⟩).tr.length = 17
    ∧ (17 : Nat) ≠ 16 :=
  ⟨by decide, by decide⟩

/-- C5: with every block acknowledged, kwboot_xmodem succeeds after
transmitting exactly ceil(L/128) framed blocks followed by one EOT byte;
a zero-length source sends only the EOT byte, and a source whose length
is a multiple of 128 is transmitted without any padding (the payloads
concatenate back to exactly the source). -/
theorem c5_blocks_and_eot (g cg : Nat → Byte) (data : List Byte) :
    kwboot_xmodem allAck g cg data =
      some (some 0,
        ⟨0, (data.length + 127) / 128 + 1, (data.length + 127) / 128⟩,
        List.map (fun b => IoEvt.sblk (blockBytes b)) (xmodemBlocks g data 1)
          ++ [IoEvt.sbyte EOT])
    ∧ (xmodemBlocks g data 1).length = (data.length + 127) / 128
    ∧ (data.length = 0 →
        List.map (fun b => IoEvt.sblk (blockBytes b)) (xmodemBlocks g data 1)
          ++ [IoEvt.sbyte EOT] = [IoEvt.sbyte EOT])
    ∧ (128 ∣ data.length →
        (List.map kwboot_block.data (xmodemBlocks g data 1)).flatten = data) := by
  refine ⟨?_, xmodemBlocks_length g data.length data 1 le_rfl, ?_, ?_⟩
  · unfold kwboot_xmodem
    rw [xmodem_go_allAck g cg (data.length + 1) data 1 none ⟨0, 0, 0⟩ (by omega)]
    simp
  · intro h0
    have hnil : data = [] := List.length_eq_zero.mp h0
    subst hnil
    rw [xmodemBlocks_nil]
    rfl
  · intro hdvd
    exact xmodemBlocks_join g data.length data 1 le_rfl hdvd

/-- C5 witness: the zero-length source, which is also a multiple of 128:
no blocks, only the EOT byte, and the payload concatenation is empty. -/
theorem c5_blocks_and_eot_witness :
    (List.map (fun b => IoEvt.sblk (blockBytes b)) (xmodemBlocks (fun _ => 0) [] 1)
        ++ [IoEvt.sbyte EOT] = [IoEvt.sbyte EOT])
    ∧ (List.map kwboot_block.data (xmodemBlocks (fun _ => 0) ([] : List Byte) 1)).flatten
        = [] :=
  ⟨(c5_blocks_and_eot (fun _ => 0) (fun _ => 0) []).2.2.1 rfl,
   (c5_blocks_and_eot (fun _ => 0) (fun _ => 0) []).2.2.2 ⟨0, rfl⟩⟩

/-- C6: for a payload of length at most 128, the stored checksum equals
the mod-256 sum of the full zero-padded 128-byte payload field (the C
loop sums only the n source bytes; the padding contributes nothing). -/
theorem c6_checksum (s0 : Byte) (p : Nat) (payload : List Byte)
    (h : payload.length ≤ 128) :
    (kwboot_xm_makeblock s0 payload payload.length p).1.csum
        = (kwboot_xm_makeblock s0 payload payload.length p).1.data.sum % 256
    ∧ (kwboot_xm_makeblock s0 payload payload.length p).1.data
        = payload ++ List.replicate (128 - payload.length) 0 := by
  have hmin : min payload.length blksz = payload.length :=
    min_eq_left (by simpa [blksz] using h)
  rw [makeblock_fst]
  dsimp only
  rw [hmin, List.take_length]
  constructor
  · rw [List.take_left]
    have h2 : List.foldl (fun a b => (a + b) % 256) 0 payload = payload.sum % 256 := by
      simpa using foldl_add_mod payload 0
    rw [h2]
    simp
  · rfl

set_option maxRecDepth 4096 in
/-- C6 witness: payload [1, 2, 3]. -/
theorem c6_checksum_witness :
    ([1, 2, 3] : List Byte).length ≤ 128
    ∧ (kwboot_xm_makeblock 0 [1, 2, 3] 3 1).1.csum
        = (kwboot_xm_makeblock 0 [1, 2, 3] 3 1).1.data.sum % 256
    ∧ (kwboot_xm_makeblock 0 [1, 2, 3] 3 1).1.data
        = [1, 2, 3] ++ List.replicate (128 - ([1, 2, 3] : List Byte).length) 0 :=
  ⟨by decide, (c6_checksum 0 1 [1, 2, 3] (by decide)).1,
   (c6_checksum 0 1 [1, 2, 3] (by decide)).2⟩

/-- C7 (amended): a failed per-attempt receive (timeout or read error,
which kwboot_tty_recv reports identically as rc = -1) never aborts the
handshake: the loop retries; a failed wake send also retries.  The loop
returns a nonzero rc only when a tcflush call fails, and that flush
failure is what is surfaced. -/
theorem c7_only_flush_aborts (ch : Chan) (fuel : Nat) (rc : Int) (st1 : ChanSt)
    (h : kwboot_bootmsg ch fuel = some (rc, st1)) (hrc : rc ≠ 0) :
    rc = -1 ∧ 0 < st1.nFlush ∧ ch.flushOk (st1.nFlush - 1) = false :=
  bootmsg_go_fail_flush ch fuel ⟨0, 0, 0⟩ rc st1 h hrc

/-- C7 witness: recv always errors; the second flush fails and the
handshake returns -1 having made two attempts. -/
theorem c7_only_flush_aborts_witness :
    kwboot_bootmsg chFlushFail 2 = some (-1, ⟨2, 1, 1⟩)
    ∧ ((-1 : Int) = -1 ∧ 0 < (⟨2, 1, 1⟩ : ChanSt).nFlush
        ∧ chFlushFail.flushOk ((⟨2, 1, 1⟩ : ChanSt).nFlush - 1) = false) :=
  ⟨by decide, c7_only_flush_aborts chFlushFail 2 (-1) ⟨2, 1, 1⟩ (by decide) (by decide)⟩

/-- C7 counterexample: the first receive is a genuine I/O error, yet the
handshake loop continues, gets NAK on the second attempt and returns
success — the error neither aborts the loop nor is surfaced. -/
theorem c7_counterexample :
    chRecvErrThenNak.recv 0 = RecvOutcome.ioerr
    ∧ kwboot_bootmsg chRecvErrThenNak 2 = some (0, ⟨2, 2, 2⟩) :=
  ⟨rfl, by decide⟩

/-- C8 (code bug): kwboot_term_quit never advances the buffer pointer,
so it compares only the first buffer byte against the quit sequence on
every iteration: the buffer holding exactly the quit sequence "\34c" is
not reported as a match (and the counter is reset to 0), while a buffer
[28, 55] against quit sequence [28, 28] is falsely reported as a match. -/
theorem c8_matcher_examines_only_first_byte :
    kwboot_term_quit [28, 99] quitSeq 0 = (-1, 0)
    ∧ kwboot_term_quit [28, 55] [28, 28] 0 = (0, 2) :=
  ⟨by decide, by decide⟩

/-- C9: if the header checksum validates and the blockid is already the
UART transport tag, kwboot_img_patch_hdr returns 0 and the image bytes
are unchanged. -/
theorem c9_patch_noop (img : List Byte) (h1 : hdrsz ≤ img.length)
    (h2 : (kwboot_img_csum8 (img.take hdrsz) + (256 - img.getD 31 0 % 256)) % 256
        = img.getD 31 0)
    (h3 : img.getD 0 0 = IBR_HDR_UART_ID) :
    kwboot_img_patch_hdr img = (0, img) := by
  unfold kwboot_img_patch_hdr
  rw [if_neg (by omega)]
  dsimp only
  rw [if_neg (fun hne => hne h2), if_pos h3]

/-- The 32-byte all-zero header with blockid 0x69 and matching checksum
0x69. -/
def img69 : List Byte := 0x69 :: (List.replicate 30 0 ++ [0x69])

/-- C9 witness: a concrete valid UART-tagged header is left untouched. -/
theorem c9_patch_noop_witness :
    (hdrsz ≤ img69.length
     ∧ (kwboot_img_csum8 (img69.take hdrsz) + (256 - img69.getD 31 0 % 256)) % 256
         = img69.getD 31 0
     ∧ img69.getD 0 0 = IBR_HDR_UART_ID)
    ∧ kwboot_img_patch_hdr img69 = (0, img69) :=
  ⟨⟨by decide, by decide, by decide⟩,
   c9_patch_noop img69 (by decide) (by decide) (by decide)⟩

/-- C10: kwboot_xm_makeblock returns min(size, 128), which is never
negative, so the sender-initiated-cancel branch of kwboot_xmodem is
unreachable and no run of the engine ever transmits a sender CAN byte. -/
theorem c10_makeblock_nonneg_no_sender_can (s0 : Byte) (d : List Byte) (sz p : Nat)
    (ch : Chan) (g cg : Nat → Byte) (data : List Byte)
    (res : Option Int × ChanSt × List IoEvt)
    (h : kwboot_xmodem ch g cg data = some res) :
    0 ≤ (kwboot_xm_makeblock s0 d sz p).2
    ∧ (kwboot_xm_makeblock s0 d sz p).2 = ((min sz 128 : Nat) : Int)
    ∧ IoEvt.sbyte CAN ∉ res.2.2 := by
  refine ⟨?_, ?_, xmodem_go_no_can ch g cg (data.length + 1) data 1 none ⟨0, 0, 0⟩ res h⟩
  · rw [makeblock_snd]; omega
  · rw [makeblock_snd]; rfl

/-- C10 witness: the empty source, whose run sends only the EOT byte. -/
theorem c10_makeblock_nonneg_no_sender_can_witness :
    kwboot_xmodem allAck (fun _ => 0) (fun _ => 0) []
        = some (some 0, ⟨0, 1, 0⟩, [IoEvt.sbyte EOT])
    ∧ (0 ≤ (kwboot_xm_makeblock 0 [] 0 1).2
       ∧ (kwboot_xm_makeblock 0 [] 0 1).2 = ((min 0 128 : Nat) : Int)
       ∧ IoEvt.sbyte CAN ∉ [IoEvt.sbyte EOT]) :=
  ⟨by decide,
   c10_makeblock_nonneg_no_sender_can 0 [] 0 1 allAck (fun _ => 0) (fun _ => 0) []
     (some 0, ⟨0, 1, 0⟩, [IoEvt.sbyte EOT]) (by decide)⟩

end Kwboot
